import Mathlib

/-!
Verification of the matrix connector transport and event bridge
(`opsdroid/connector/matrix/matrix_async.py` and the event creator).

The transport `AsyncHTTPAPI._send` is embedded as a pure function over a
scripted list of physical HTTP responses; the retry loop consumes the
script one response per physical attempt.  Dictionaries become
association lists, JSON values become an inductive type, the `asyncio`
sleep becomes a recorded duration in seconds (a rational), and the
outcome is an explicit sum of the success and failure modes the Python
code can exhibit.
-/

/-- A JSON value, as manipulated by the transport and event bridge. -/
inductive Json where
  | null : Json
  | bool : Bool → Json
  | num : Int → Json
  | str : String → Json
  | arr : List Json → Json
  | obj : List (String × Json) → Json
deriving Repr

/-- Field lookup on a JSON object (first binding wins), mirroring a
Python dict subscript that may raise KeyError (modelled as `none`). -/
def Json.getField : Json → String → Option Json
  | .obj fields, k => fields.lookup k
  | _, _ => none

/-- Lookup of a string-valued field. -/
def Json.getStr (j : Json) (k : String) : Option String :=
  match j.getField k with
  | some (.str s) => some s
  | _ => none

/-- Python equality between a JSON value and a string (the loop of
`get_room_displayname` compares `mem` at `sender` with the user id,
always a string): true exactly when the value is that string. -/
def Json.eqStr : Json → String → Bool
  | .str s, t => s == t
  | _, _ => false

/-- Python truthiness of a JSON value (`if not content:`). -/
def Json.falsy : Json → Bool
  | .null => true
  | .bool b => !b
  | .num n => n == 0
  | .str s => s == ""
  | .arr xs => xs.isEmpty
  | .obj fs => fs.isEmpty

/-- Python `str.upper()`, character-wise (the method strings involved
are ASCII). -/
def strUpper (s : String) : String := ⟨s.data.map Char.toUpper⟩

/-- An association-list lookup for string dictionaries. -/
def dictGet (l : List (String × String)) (k : String) : Option String :=
  l.lookup k

/-- Python dict assignment `d[k] = v`: overwrites the binding in place
when the key is present (dict keys are unique, so at most one binding
matches), appends it otherwise. -/
def dictSet : List (String × String) → String → String →
    List (String × String)
  | [], k, v => [(k, v)]
  | p :: l, k, v => if p.1 == k then (k, v) :: l else p :: dictSet l k v

/-- The body handed to the HTTP client: either the JSON-serialized text
of the content (the `json.dumps` branch) or the unserialized content
object (any other declared content type). -/
inductive Payload where
  | jsonText : Json → Payload
  | rawObj : Json → Payload
deriving Repr

/-- One physical HTTP request as issued to `client_session.request`. -/
structure HttpRequest where
  method : String
  endpoint : String
  params : List (String × String)
  data : Payload
  headers : List (String × String)

/-- One scripted physical HTTP response: status code, the JSON decoding
of the body (`none` when `response.json()` would fail), and the raw body
text. -/
structure Response where
  status : Nat
  jsonBody : Option Json
  text : String

/-- The ways `_send` can terminate. `matrixError` is the unsupported
method failure, `requestError` the non-2xx non-429 failure carrying
status and raw text, `jsonDecodeError` a failed `response.json()`,
`keyError` a missing dict key, `typeError` a non-numeric
`retry_after_ms`, and `outOfResponses` marks a run whose scripted
responses were exhausted while the loop was still retrying. -/
inductive SendOutcome where
  | ok : Json → SendOutcome
  | matrixError : String → SendOutcome
  | requestError : Nat → String → SendOutcome
  | jsonDecodeError : SendOutcome
  | keyError : String → SendOutcome
  | typeError : SendOutcome
  | outOfResponses : SendOutcome
deriving Repr

/-- Whether an outcome is the unsupported-method failure. -/
def SendOutcome.isMatrixError : SendOutcome → Bool
  | .matrixError _ => true
  | _ => false

/-- The observable trace of one `_send` call: the physical requests
issued in order, the sleep durations in seconds, and the outcome. -/
structure SendTrace where
  requests : List HttpRequest
  sleeps : List ℚ
  outcome : SendOutcome

/-- The decoding a 429 branch performs on its response:
`await response.json()` (fails as `jsonDecodeError`), then the
subscript `respjson` at `retry_after_ms` (fails as `keyError`), then
use of the value as a number (fails as `typeError`). -/
def parseRetryAfter (r : Response) : SendOutcome ⊕ Int :=
  match r.jsonBody with
  | none => .inl .jsonDecodeError
  | some j =>
    match j.getField "retry_after_ms" with
    | none => .inl (.keyError "retry_after_ms")
    | some (.num n) => .inr n
    | some _ => .inl .typeError

/-- The `retry_after_ms` value of a response, milliseconds, zero when
the response carries none. -/
def retryMs (r : Response) : Int :=
  match parseRetryAfter r with
  | .inr n => n
  | .inl _ => 0

/-- The `while True` loop of `_send`, one scripted response per
iteration.  A 429 response has its JSON body decoded and its
`retry_after_ms` field divided by 1000 to give the sleep in seconds,
after which the identical request is re-issued; any other status
outside [200, 300) raises `MatrixRequestError` with the status and raw
text; a 2xx returns the decoded JSON body. -/
def sendLoop (req : HttpRequest) : List Response → SendTrace
  | [] => ⟨[], [], .outOfResponses⟩
  | r :: rest =>
    if r.status = 429 then
      match parseRetryAfter r with
      | .inl e => ⟨[req], [], e⟩
      | .inr n =>
        let t := sendLoop req rest
        ⟨req :: t.requests, (n : ℚ) / 1000 :: t.sleeps, t.outcome⟩
    else if r.status < 200 ∨ 300 ≤ r.status then
      ⟨[req], [], .requestError r.status r.text⟩
    else
      match r.jsonBody with
      | none => ⟨[req], [], .jsonDecodeError⟩
      | some j => ⟨[req], [], .ok j⟩

/-- The arguments of one `_send` call, `none` standing for an omitted
keyword argument. -/
structure SendArgs where
  method : String
  path : String
  content : Option Json := none
  query_params : Option (List (String × String)) := none
  headers : Option (List (String × String)) := none
  api_path : String := "/_matrix/client/r0"

/-- The methods accepted by `_send`. -/
def supportedMethods : List String := ["GET", "PUT", "DELETE", "POST"]

/-- Builds the single physical request that `_send` issues (and
re-issues on 429): defaults falsy or omitted content, query parameters
and headers to empty; inserts `Content-Type: application/json` when no
content type is supplied; appends the session token as the
`access_token` query parameter; concatenates base url, api path and
path into the endpoint; serializes the content to JSON text when the
content type is `application/json`. -/
def buildRequest (base_url : String) (token : Option String)
    (args : SendArgs) : HttpRequest :=
  let content := match args.content with
    | none => Json.obj []
    | some c => if c.falsy then Json.obj [] else c
  let query_params := args.query_params.getD []
  let headers := args.headers.getD []
  let headers := match dictGet headers "Content-Type" with
    | none => headers ++ [("Content-Type", "application/json")]
    | some _ => headers
  let query_params := match token with
    | none => query_params
    | some t => dictSet query_params "access_token" t
  let endpoint := base_url ++ args.api_path ++ args.path
  let data := if dictGet headers "Content-Type" = some "application/json"
    then Payload.jsonText content
    else Payload.rawObj content
  ⟨strUpper args.method, endpoint, query_params, data, headers⟩

/-- `AsyncHTTPAPI._send`: uppercases the method and rejects it unless it
is one of GET, PUT, DELETE, POST (before any request is issued), builds
the request, then runs the retry loop against the scripted responses. -/
def send (base_url : String) (token : Option String) (args : SendArgs)
    (responses : List Response) : SendTrace :=
  if strUpper args.method ∉ supportedMethods then
    ⟨[], [], .matrixError ("Unsupported HTTP method: " ++ strUpper args.method)⟩
  else
    sendLoop (buildRequest base_url token args) responses

/-- The body of `AsyncHTTPAPI.get_room_displayname` after the member
listing has been fetched: takes the JSON of the room-member listing,
reads its `chunk` array and scans it in order, returning the
`content.displayname` of the first entry whose `sender` equals the
queried user id, and falling off the loop (Python returns `None`) when
no entry matches.  A missing key raises (modelled as `.error`). -/
def displaynameScan (user_id : String) : List Json → Except String (Option Json)
  | [] => .ok none
  | mem :: rest =>
    match mem.getField "sender" with
    | none => .error "KeyError: sender"
    | some s =>
      if s.eqStr user_id then
        match mem.getField "content" with
        | none => .error "KeyError: content"
        | some c =>
          match c.getField "displayname" with
          | none => .error "KeyError: displayname"
          | some d => .ok (some d)
      else
        displaynameScan user_id rest

/-- `get_room_displayname`, given the decoded room-member listing that
`get_room_members` returned. -/
def get_room_displayname (members : Json) (user_id : String) :
    Except String (Option Json) :=
  match members.getField "chunk" with
  | none => .error "KeyError: chunk"
  | some (.arr chunk) => displaynameScan user_id chunk
  | some _ => .error "TypeError: not iterable"

/-- The common fields every domain event carries. -/
structure DomainFields where
  user : String
  user_id : String
  target : String
  event_id : String
  raw_event : Json

/-- Modelled from the spec: the closed set of domain event variants
produced by the event bridge (the `MatrixEventCreator` implementation
is not in the sources, only its tests; the variants and their payload
fields follow the dispatch table of the spec). -/
inductive DomainEvent where
  | message : String → DomainFields → DomainEvent
  | editedMessage : String → String → DomainFields → DomainEvent
  | file : String → DomainFields → DomainEvent
  | image : String → DomainFields → DomainEvent
  | roomName : String → DomainFields → DomainEvent
  | roomDescription : String → DomainFields → DomainEvent
  | reaction : String → String → DomainFields → DomainEvent

/-- Modelled from the spec: `MatrixEventCreator.create_event` (its
implementation is absent from the sources; this follows the dispatch
table of the spec).  Dispatches on the wire event type, and on
`content.msgtype` for room messages; produces `none` for any
unrecognized type or msgtype.  `getNick` is the enrichment collaborator
resolving the display name of the sender, `getDownloadUrl` the media
URL resolver.  Every produced event carries the resolved display name,
the sender verbatim, the target argument, the wire event id and the
unmodified wire event. -/
def create_event (getNick : String → String)
    (getDownloadUrl : String → String)
    (wire : Json) (target : String) : Option DomainEvent := do
  let ty ← wire.getStr "type"
  let sender ← wire.getStr "sender"
  let event_id ← wire.getStr "event_id"
  let fields : DomainFields :=
    ⟨getNick sender, sender, target, event_id, wire⟩
  if ty == "m.room.message" then
    let content ← wire.getField "content"
    let msgtype ← content.getStr "msgtype"
    if msgtype == "m.text" then
      match content.getField "m.relates_to" with
      | some rel =>
        if rel.getStr "rel_type" == some "m.replace" then do
          let newContent ← content.getField "m.new_content"
          let text ← newContent.getStr "body"
          let edited ← rel.getStr "event_id"
          return .editedMessage text edited fields
        else do
          let text ← content.getStr "body"
          return .message text fields
      | none => do
        let text ← content.getStr "body"
        return .message text fields
    else if msgtype == "m.file" then do
      let url ← content.getStr "url"
      return .file (getDownloadUrl url) fields
    else if msgtype == "m.image" then do
      let url ← content.getStr "url"
      return .image (getDownloadUrl url) fields
    else
      none
  else if ty == "m.room.name" then do
    let content ← wire.getField "content"
    let name ← content.getStr "name"
    return .roomName name fields
  else if ty == "m.room.topic" then do
    let content ← wire.getField "content"
    let topic ← content.getStr "topic"
    return .roomDescription topic fields
  else if ty == "m.reaction" then do
    let content ← wire.getField "content"
    let rel ← content.getField "m.relates_to"
    let key ← rel.getStr "key"
    let replied ← rel.getStr "event_id"
    return .reaction key replied fields
  else
    none

/-- The wire event types the event bridge recognizes. -/
def recognizedTypes : List String :=
  ["m.room.message", "m.room.name", "m.room.topic", "m.reaction"]

/-- The room-message msgtypes the event bridge recognizes. -/
def recognizedMsgtypes : List String := ["m.text", "m.file", "m.image"]

/-! ## Helper lemmas -/

theorem dictGet_dictSet (l : List (String × String)) (k v : String) :
    dictGet (dictSet l k v) k = some v := by
  induction l with
  | nil => simp [dictGet, dictSet, List.lookup]
  | cons p l ih =>
    rcases p with ⟨k', v'⟩
    by_cases h : k' = k
    · subst h
      simp [dictGet, dictSet, List.lookup]
    · simp only [dictSet]
      rw [if_neg (by simpa using h)]
      simpa [dictGet, List.lookup, beq_eq_false_iff_ne.mpr (Ne.symm h)] using ih

theorem dictGet_append_ne (l : List (String × String)) (k k' v : String)
    (h : k' ≠ k) : dictGet (l ++ [(k, v)]) k' = dictGet l k' := by
  induction l with
  | nil => simp [dictGet, List.lookup, beq_eq_false_iff_ne.mpr h]
  | cons p l ih =>
    rcases p with ⟨a, b⟩
    simp only [dictGet, List.cons_append, List.lookup_cons] at ih ⊢
    cases k' == a
    · simpa using ih
    · simp

theorem dictGet_append_self (l : List (String × String)) (k v : String)
    (h : dictGet l k = none) : dictGet (l ++ [(k, v)]) k = some v := by
  induction l with
  | nil => simp [dictGet, List.lookup]
  | cons p l ih =>
    rcases p with ⟨a, b⟩
    simp only [dictGet, List.cons_append, List.lookup_cons] at h ih ⊢
    cases hm : k == a
    · simp only [hm] at h ih ⊢
      exact ih h
    · simp [hm] at h

/-- Every physical request the retry loop issues is the request built
before the loop: a retry re-issues the identical request. -/
theorem sendLoop_requests_const (req : HttpRequest) (responses : List Response) :
    ∀ q ∈ (sendLoop req responses).requests, q = req := by
  induction responses with
  | nil => simp [sendLoop]
  | cons r rest ih =>
    intro q hq
    unfold sendLoop at hq
    by_cases h429 : r.status = 429
    · rw [if_pos h429] at hq
      cases hp : parseRetryAfter r with
      | inl e =>
        rw [hp] at hq
        simp at hq
        exact hq
      | inr n =>
        rw [hp] at hq
        simp at hq
        rcases hq with hq | hq
        · exact hq
        · exact ih q hq
    · rw [if_neg h429] at hq
      by_cases hs : r.status < 200 ∨ 300 ≤ r.status
      · rw [if_pos hs] at hq
        simpa using hq
      · rw [if_neg hs] at hq
        cases hb : r.jsonBody <;> rw [hb] at hq <;> simpa using hq

/-- The retry loop issues at least one physical request as soon as one
scripted response exists. -/
theorem sendLoop_head (req : HttpRequest) (r : Response) (rest : List Response) :
    (sendLoop req (r :: rest)).requests.head? = some req := by
  unfold sendLoop
  by_cases h429 : r.status = 429
  · rw [if_pos h429]
    cases hp : parseRetryAfter r <;> simp
  · rw [if_neg h429]
    by_cases hs : r.status < 200 ∨ 300 ≤ r.status
    · rw [if_pos hs]
      simp
    · rw [if_neg hs]
      cases hb : r.jsonBody <;> simp

/-- One loop iteration on a 429 response carrying a numeric
`retry_after_ms`: the identical request is re-issued after a sleep of
`retry_after_ms / 1000` seconds. -/
theorem sendLoop_cons_429 (req : HttpRequest) (r : Response)
    (rest : List Response) (h429 : r.status = 429) (n : Int)
    (hp : parseRetryAfter r = .inr n) :
    sendLoop req (r :: rest) =
      ⟨req :: (sendLoop req rest).requests,
       (n : ℚ) / 1000 :: (sendLoop req rest).sleeps,
       (sendLoop req rest).outcome⟩ := by
  conv_lhs => unfold sendLoop
  rw [if_pos h429, hp]

/-- A run of 429 responses each carrying a numeric `retry_after_ms` is
absorbed by the loop: one extra identical physical request and one
sleep of `retry_after_ms / 1000` seconds per 429, after which the loop
continues on the remaining script. -/
theorem sendLoop_absorbs_429 (req : HttpRequest) (rs : List Response)
    (rest : List Response)
    (hrs : ∀ r ∈ rs, r.status = 429 ∧ parseRetryAfter r = .inr (retryMs r)) :
    sendLoop req (rs ++ rest) =
      ⟨List.replicate rs.length req ++ (sendLoop req rest).requests,
       rs.map (fun r => (retryMs r : ℚ) / 1000) ++ (sendLoop req rest).sleeps,
       (sendLoop req rest).outcome⟩ := by
  induction rs with
  | nil => simp
  | cons r rs ih =>
    obtain ⟨h429, hp⟩ := hrs r (List.mem_cons_self r rs)
    have ih' := ih (fun x hx => hrs x (List.mem_cons_of_mem r hx))
    rw [List.cons_append, sendLoop_cons_429 req r (rs ++ rest) h429 (retryMs r) hp,
      ih']
    simp [List.replicate_succ]

/-- A 2xx response with a decodable JSON body ends the loop at once
with that body. -/
theorem sendLoop_2xx (req : HttpRequest) (r : Response) (rest : List Response)
    (j : Json) (h1 : 200 ≤ r.status) (h2 : r.status < 300)
    (hj : r.jsonBody = some j) :
    sendLoop req (r :: rest) = ⟨[req], [], .ok j⟩ := by
  unfold sendLoop
  rw [if_neg (by omega), if_neg (by omega), hj]

theorem parseRetryAfter_not_matrixError (r : Response) (e : SendOutcome)
    (h : parseRetryAfter r = .inl e) : e.isMatrixError = false := by
  unfold parseRetryAfter at h
  cases hb : r.jsonBody with
  | none =>
    rw [hb] at h
    simp at h
    subst h
    rfl
  | some j =>
    rw [hb] at h
    cases hf : j.getField "retry_after_ms" with
    | none =>
      simp [hf] at h
      subst h
      rfl
    | some v =>
      cases v <;> simp [hf] at h <;> subst h <;> rfl

/-- The retry loop never fails with the unsupported-method error: that
check happens before the loop. -/
theorem sendLoop_not_matrixError (req : HttpRequest)
    (responses : List Response) :
    (sendLoop req responses).outcome.isMatrixError = false := by
  induction responses with
  | nil => rfl
  | cons r rest ih =>
    unfold sendLoop
    by_cases h429 : r.status = 429
    · rw [if_pos h429]
      cases hp : parseRetryAfter r with
      | inl e => exact parseRetryAfter_not_matrixError r e hp
      | inr n => exact ih
    · rw [if_neg h429]
      by_cases hs : r.status < 200 ∨ 300 ≤ r.status
      · rw [if_pos hs]
        rfl
      · rw [if_neg hs]
        cases r.jsonBody <;> rfl

theorem buildRequest_method (base_url : String) (token : Option String)
    (args : SendArgs) :
    (buildRequest base_url token args).method = strUpper args.method := rfl

theorem buildRequest_params_token (base_url : String) (t : String)
    (args : SendArgs) :
    (buildRequest base_url (some t) args).params =
      dictSet (args.query_params.getD []) "access_token" t := rfl

theorem buildRequest_headers (base_url : String) (token : Option String)
    (args : SendArgs) :
    (buildRequest base_url token args).headers =
      match dictGet (args.headers.getD []) "Content-Type" with
      | none => args.headers.getD [] ++ [("Content-Type", "application/json")]
      | some _ => args.headers.getD [] := rfl

theorem buildRequest_data_json (base_url : String) (token : Option String)
    (args : SendArgs)
    (h : dictGet (buildRequest base_url token args).headers "Content-Type" =
      some "application/json") :
    (buildRequest base_url token args).data =
      Payload.jsonText (match args.content with
        | none => Json.obj []
        | some c => if c.falsy then Json.obj [] else c) := by
  have hd : (buildRequest base_url token args).data =
      if dictGet (buildRequest base_url token args).headers "Content-Type" =
          some "application/json"
        then Payload.jsonText (match args.content with
          | none => Json.obj []
          | some c => if c.falsy then Json.obj [] else c)
        else Payload.rawObj (match args.content with
          | none => Json.obj []
          | some c => if c.falsy then Json.obj [] else c) := rfl
  rw [hd, if_pos h]

/-! ## The claims about the transport -/

/-- C1: every 429 response has its `retry_after_ms` decoded and induces
a sleep of `retry_after_ms / 1000` seconds followed by a re-issue of
the identical request; the loop consumes no retry budget and has no
cap, so any number of consecutive 429s is absorbed; a following 2xx
response returns its decoded JSON body, a single 429 followed by a 2xx
making exactly two physical attempts. -/
theorem send_429_retries_unbounded
    (base_url : String) (token : Option String) (args : SendArgs)
    (rs : List Response) (r2 : Response) (j : Json)
    (hm : strUpper args.method ∈ supportedMethods)
    (hrs : ∀ r ∈ rs, r.status = 429 ∧ parseRetryAfter r = .inr (retryMs r))
    (h2a : 200 ≤ r2.status) (h2b : r2.status < 300)
    (hj : r2.jsonBody = some j) :
    send base_url token args (rs ++ [r2]) =
      ⟨List.replicate (rs.length + 1) (buildRequest base_url token args),
       rs.map (fun r => (retryMs r : ℚ) / 1000),
       .ok j⟩ := by
  unfold send
  rw [if_neg (not_not_intro hm)]
  rw [sendLoop_absorbs_429 _ rs [r2] hrs,
    sendLoop_2xx _ r2 [] j h2a h2b hj]
  simp [List.replicate_succ']

theorem send_429_retries_unbounded_witness :
    send "http://h" none ⟨"GET", "/a", none, none, none, "/p"⟩
        ([⟨429, some (.obj [("retry_after_ms", .num 50)]), "limited"⟩] ++
          [⟨200, some (.str "done"), "raw"⟩]) =
      ⟨List.replicate 2
        (buildRequest "http://h" none ⟨"GET", "/a", none, none, none, "/p"⟩),
       [((50 : Int) : ℚ) / 1000], .ok (.str "done")⟩ :=
  send_429_retries_unbounded "http://h" none ⟨"GET", "/a", none, none, none, "/p"⟩
    [⟨429, some (.obj [("retry_after_ms", .num 50)]), "limited"⟩]
    ⟨200, some (.str "done"), "raw"⟩ (.str "done")
    (by decide)
    (by
      intro r hr
      simp only [List.mem_singleton] at hr
      subst hr
      exact ⟨rfl, rfl⟩)
    (by decide) (by decide) rfl

/-- C2: a response whose status is outside [200, 300) and is not 429
makes `_send` fail at once with a request error carrying that status
and the raw body text, after exactly one physical attempt, with no
sleep and no retry. -/
theorem send_non429_error_single_attempt
    (base_url : String) (token : Option String) (args : SendArgs)
    (r : Response) (rest : List Response)
    (hm : strUpper args.method ∈ supportedMethods)
    (h429 : r.status ≠ 429)
    (hs : r.status < 200 ∨ 300 ≤ r.status) :
    send base_url token args (r :: rest) =
      ⟨[buildRequest base_url token args], [],
       .requestError r.status r.text⟩ := by
  unfold send
  rw [if_neg (not_not_intro hm)]
  unfold sendLoop
  rw [if_neg h429, if_pos hs]

theorem send_non429_error_single_attempt_witness :
    send "http://h" none ⟨"GET", "/a", none, none, none, "/p"⟩
        [⟨404, some (.obj [("errcode", .str "M_NOT_FOUND")]), "not found"⟩] =
      ⟨[buildRequest "http://h" none ⟨"GET", "/a", none, none, none, "/p"⟩],
       [], .requestError 404 "not found"⟩ :=
  send_non429_error_single_attempt "http://h" none
    ⟨"GET", "/a", none, none, none, "/p"⟩
    ⟨404, some (.obj [("errcode", .str "M_NOT_FOUND")]), "not found"⟩ []
    (by decide) (by decide) (Or.inr (by decide))

/-- C3: a method whose uppercasing is outside GET, PUT, DELETE, POST
makes `_send` fail with the unsupported-method error before any
network attempt: the HTTP client is never invoked (no request in the
trace). -/
theorem send_unsupported_method_no_request
    (base_url : String) (token : Option String) (args : SendArgs)
    (responses : List Response)
    (hm : strUpper args.method ∉ supportedMethods) :
    send base_url token args responses =
      ⟨[], [],
       .matrixError ("Unsupported HTTP method: " ++ strUpper args.method)⟩ := by
  unfold send
  rw [if_pos hm]

theorem send_unsupported_method_no_request_witness :
    send "http://h" none ⟨"PATCH", "/a", none, none, none, "/p"⟩
        [⟨200, some .null, ""⟩] =
      ⟨[], [],
       .matrixError ("Unsupported HTTP method: " ++ strUpper "PATCH")⟩ :=
  send_unsupported_method_no_request "http://h" none
    ⟨"PATCH", "/a", none, none, none, "/p"⟩ [⟨200, some .null, ""⟩] (by decide)

/-- C4: a 429 response whose decoded JSON body lacks the
`retry_after_ms` field makes `_send` propagate the lookup error after
one physical attempt, with no sleep and no silent retry. -/
theorem send_429_missing_retry_after
    (base_url : String) (token : Option String) (args : SendArgs)
    (r : Response) (rest : List Response) (j : Json)
    (hm : strUpper args.method ∈ supportedMethods)
    (h429 : r.status = 429)
    (hj : r.jsonBody = some j)
    (hk : j.getField "retry_after_ms" = none) :
    send base_url token args (r :: rest) =
      ⟨[buildRequest base_url token args], [],
       .keyError "retry_after_ms"⟩ := by
  unfold send
  rw [if_neg (not_not_intro hm)]
  unfold sendLoop
  rw [if_pos h429]
  have hp : parseRetryAfter r = .inl (.keyError "retry_after_ms") := by
    unfold parseRetryAfter
    rw [hj]
    simp [hk]
  rw [hp]

theorem send_429_missing_retry_after_witness :
    send "http://h" none ⟨"GET", "/a", none, none, none, "/p"⟩
        [⟨429, some (.obj [("errcode", .str "M_LIMIT_EXCEEDED")]), "rl"⟩,
         ⟨200, some .null, ""⟩] =
      ⟨[buildRequest "http://h" none ⟨"GET", "/a", none, none, none, "/p"⟩],
       [], .keyError "retry_after_ms"⟩ :=
  send_429_missing_retry_after "http://h" none
    ⟨"GET", "/a", none, none, none, "/p"⟩
    ⟨429, some (.obj [("errcode", .str "M_LIMIT_EXCEEDED")]), "rl"⟩
    [⟨200, some .null, ""⟩] (.obj [("errcode", .str "M_LIMIT_EXCEEDED")])
    (by decide) rfl rfl rfl

/-- C5: with a configured token, the issued request carries the token
as the `access_token` query parameter and leaves the Authorization
header untouched; when no Content-Type is supplied the headers gain
`Content-Type: application/json`; and when the Content-Type is
`application/json` the body is the JSON serialization of the content. -/
theorem send_token_and_content_type
    (base_url : String) (t : String) (args : SendArgs)
    (responses : List Response)
    (hm : strUpper args.method ∈ supportedMethods)
    (hne : responses ≠ []) :
    (send base_url (some t) args responses).requests.head? =
        some (buildRequest base_url (some t) args) ∧
      dictGet (buildRequest base_url (some t) args).params "access_token" =
        some t ∧
      dictGet (buildRequest base_url (some t) args).headers "Authorization" =
        dictGet (args.headers.getD []) "Authorization" ∧
      (dictGet (args.headers.getD []) "Content-Type" = none →
        dictGet (buildRequest base_url (some t) args).headers "Content-Type" =
          some "application/json") ∧
      (dictGet (buildRequest base_url (some t) args).headers "Content-Type" =
          some "application/json" →
        ∃ c, (buildRequest base_url (some t) args).data =
          Payload.jsonText c) := by
  refine ⟨?_, ?_, ?_, ?_, ?_⟩
  · obtain ⟨r, rest, rfl⟩ : ∃ r rest, responses = r :: rest := by
      cases responses with
      | nil => exact absurd rfl hne
      | cons r rest => exact ⟨r, rest, rfl⟩
    unfold send
    rw [if_neg (not_not_intro hm)]
    exact sendLoop_head _ r rest
  · rw [buildRequest_params_token]
    exact dictGet_dictSet _ _ _
  · rw [buildRequest_headers]
    cases h0 : dictGet (args.headers.getD []) "Content-Type"
    · exact dictGet_append_ne _ _ _ _ (by decide)
    · rfl
  · intro h0
    rw [buildRequest_headers, h0]
    exact dictGet_append_self _ _ _ h0
  · intro h0
    exact ⟨_, buildRequest_data_json base_url (some t) args h0⟩

theorem send_token_and_content_type_witness :
    (send "http://h" (some "tok") ⟨"GET", "/a", none, none, none, "/p"⟩
          [⟨200, some .null, ""⟩]).requests.head? =
        some (buildRequest "http://h" (some "tok")
          ⟨"GET", "/a", none, none, none, "/p"⟩) ∧
      dictGet (buildRequest "http://h" (some "tok")
          ⟨"GET", "/a", none, none, none, "/p"⟩).params "access_token" =
        some "tok" ∧
      dictGet (buildRequest "http://h" (some "tok")
          ⟨"GET", "/a", none, none, none, "/p"⟩).headers "Authorization" =
        dictGet ((none : Option (List (String × String))).getD [])
          "Authorization" ∧
      (dictGet ((none : Option (List (String × String))).getD [])
          "Content-Type" = none →
        dictGet (buildRequest "http://h" (some "tok")
            ⟨"GET", "/a", none, none, none, "/p"⟩).headers "Content-Type" =
          some "application/json") ∧
      (dictGet (buildRequest "http://h" (some "tok")
            ⟨"GET", "/a", none, none, none, "/p"⟩).headers "Content-Type" =
          some "application/json" →
        ∃ c, (buildRequest "http://h" (some "tok")
            ⟨"GET", "/a", none, none, none, "/p"⟩).data =
          Payload.jsonText c) :=
  send_token_and_content_type "http://h" "tok"
    ⟨"GET", "/a", none, none, none, "/p"⟩ [⟨200, some .null, ""⟩]
    (by decide) (by simp)

/-- C9: the method is uppercased before validation, so any spelling
whose uppercasing is a supported method proceeds: the outcome is never
the unsupported-method error, the issued request carries the uppercased
method, and a first scripted response always gets a physical attempt. -/
theorem send_method_case_insensitive
    (base_url : String) (token : Option String) (args : SendArgs)
    (responses : List Response)
    (hm : strUpper args.method ∈ supportedMethods) :
    (send base_url token args responses).outcome.isMatrixError = false ∧
      (buildRequest base_url token args).method = strUpper args.method ∧
      (responses ≠ [] →
        (send base_url token args responses).requests.head? =
          some (buildRequest base_url token args)) := by
  refine ⟨?_, buildRequest_method base_url token args, ?_⟩
  · unfold send
    rw [if_neg (not_not_intro hm)]
    exact sendLoop_not_matrixError _ _
  · intro hne
    obtain ⟨r, rest, rfl⟩ : ∃ r rest, responses = r :: rest := by
      cases responses with
      | nil => exact absurd rfl hne
      | cons r rest => exact ⟨r, rest, rfl⟩
    unfold send
    rw [if_neg (not_not_intro hm)]
    exact sendLoop_head _ r rest

/-- C6: a well-formed room message of msgtype `m.text` with no replace
relation becomes a Message domain event whose text is `content.body`,
whose user is the display name the enrichment collaborator resolves for
the sender, whose user id is the sender verbatim, whose target is the
target argument, whose event id is the wire event id, and whose raw
event is the unmodified input wire event. -/
theorem create_event_text_message
    (getNick getDownloadUrl : String → String) (wire : Json)
    (target : String) (content : Json) (body sender event_id : String)
    (hty : wire.getStr "type" = some "m.room.message")
    (hsender : wire.getStr "sender" = some sender)
    (hid : wire.getStr "event_id" = some event_id)
    (hcontent : wire.getField "content" = some content)
    (hmsg : content.getStr "msgtype" = some "m.text")
    (hrel : content.getField "m.relates_to" = none ∨
      ∃ rel, content.getField "m.relates_to" = some rel ∧
        (rel.getStr "rel_type" == some "m.replace") = false)
    (hbody : content.getStr "body" = some body) :
    create_event getNick getDownloadUrl wire target =
      some (.message body
        ⟨getNick sender, sender, target, event_id, wire⟩) := by
  rcases hrel with hrel | ⟨rel, hrelEq, hrelne⟩
  · simp [create_event, hty, hsender, hid, hcontent, hmsg, hbody, hrel]
  · have hne : rel.getStr "rel_type" ≠ some "m.replace" := by
      intro hcontra
      rw [hcontra] at hrelne
      simp at hrelne
    simp [create_event, hty, hsender, hid, hcontent, hmsg, hbody, hrelEq,
      hne]

theorem create_event_text_message_witness :
    create_event (fun _ => "Rabbit Hole") (fun u => u)
        (.obj [("type", .str "m.room.message"),
               ("sender", .str "@neo:matrix.org"),
               ("event_id", .str "$evt1"),
               ("content", .obj [("msgtype", .str "m.text"),
                                 ("body", .str "LOUD NOISES")])])
        "hello" =
      some (.message "LOUD NOISES"
        ⟨"Rabbit Hole", "@neo:matrix.org", "hello", "$evt1",
         .obj [("type", .str "m.room.message"),
               ("sender", .str "@neo:matrix.org"),
               ("event_id", .str "$evt1"),
               ("content", .obj [("msgtype", .str "m.text"),
                                 ("body", .str "LOUD NOISES")])]⟩) :=
  create_event_text_message (fun _ => "Rabbit Hole") (fun u => u)
    (.obj [("type", .str "m.room.message"),
           ("sender", .str "@neo:matrix.org"),
           ("event_id", .str "$evt1"),
           ("content", .obj [("msgtype", .str "m.text"),
                             ("body", .str "LOUD NOISES")])])
    "hello"
    (.obj [("msgtype", .str "m.text"), ("body", .str "LOUD NOISES")])
    "LOUD NOISES" "@neo:matrix.org" "$evt1"
    rfl rfl rfl rfl rfl (Or.inl rfl) rfl

/-- C7: a wire event whose type is outside the recognized set, or a
room message whose msgtype is outside the recognized msgtypes, yields
none: a result, not an error. -/
theorem create_event_unrecognized_none
    (getNick getDownloadUrl : String → String) (wire : Json)
    (target : String) (ty : String)
    (hty : wire.getStr "type" = some ty)
    (h : ty ∉ recognizedTypes ∨
      (ty = "m.room.message" ∧
        ∃ content mt, wire.getField "content" = some content ∧
          content.getStr "msgtype" = some mt ∧ mt ∉ recognizedMsgtypes)) :
    create_event getNick getDownloadUrl wire target = none := by
  rcases h with h | ⟨hty2, content, mt, hc, hmt, hmt2⟩
  · simp only [recognizedTypes, List.mem_cons, List.not_mem_nil, or_false,
      not_or] at h
    obtain ⟨h1, h2, h3, h4⟩ := h
    cases hs : wire.getStr "sender" with
    | none => simp [create_event, hty, hs]
    | some sender =>
      cases hid : wire.getStr "event_id" with
      | none => simp [create_event, hty, hs, hid]
      | some eid =>
        simp [create_event, hty, hs, hid, h1, h2, h3, h4]
  · subst hty2
    simp only [recognizedMsgtypes, List.mem_cons, List.not_mem_nil, or_false,
      not_or] at hmt2
    obtain ⟨hm1, hm2, hm3⟩ := hmt2
    cases hs : wire.getStr "sender" with
    | none => simp [create_event, hty, hs]
    | some sender =>
      cases hid : wire.getStr "event_id" with
      | none => simp [create_event, hty, hs, hid]
      | some eid =>
        simp [create_event, hty, hs, hid, hc, hmt, hm1, hm2, hm3]

theorem create_event_unrecognized_none_witness :
    create_event (fun _ => "Rabbit Hole") (fun u => u)
        (.obj [("type", .str "wibble"),
               ("sender", .str "@neo:matrix.org"),
               ("event_id", .str "$evt2"),
               ("content", .obj [("msgtype", .str "m.text"),
                                 ("body", .str "hi")])])
        "hello" = none :=
  create_event_unrecognized_none (fun _ => "Rabbit Hole") (fun u => u)
    (.obj [("type", .str "wibble"),
           ("sender", .str "@neo:matrix.org"),
           ("event_id", .str "$evt2"),
           ("content", .obj [("msgtype", .str "m.text"),
                             ("body", .str "hi")])])
    "hello" "wibble" rfl (Or.inl (by decide))

theorem displaynameScan_no_match_aux (user_id : String) (chunk : List Json)
    (hall : ∀ m ∈ chunk, ∃ s, m.getField "sender" = some s ∧
        ( s.eqStr user_id) = false) :
    displaynameScan user_id chunk = .ok none := by
  induction chunk with
  | nil => rfl
  | cons m rest ih =>
    obtain ⟨s, hs, hne⟩ := hall m (List.mem_cons_self m rest)
    simp [displaynameScan, hs, hne]
    exact ih (fun x hx => hall x (List.mem_cons_of_mem m hx))

theorem displaynameScan_first_match_aux (user_id : String)
    (pre : List Json) (mem : Json) (post : List Json) (s c d : Json)
    (hpre : ∀ m ∈ pre, ∃ s0, m.getField "sender" = some s0 ∧
        ( s0.eqStr user_id) = false)
    (hs : mem.getField "sender" = some s)
    (hseq : ( s.eqStr user_id) = true)
    (hc : mem.getField "content" = some c)
    (hd : c.getField "displayname" = some d) :
    displaynameScan user_id (pre ++ mem :: post) = .ok (some d) := by
  induction pre with
  | nil =>
    simp [displaynameScan, hs, hseq, hc, hd]
  | cons m rest ih =>
    obtain ⟨s0, hs0, hne0⟩ := hpre m (List.mem_cons_self m rest)
    simp [displaynameScan, hs0, hne0]
    exact ih (fun x hx => hpre x (List.mem_cons_of_mem m hx))

/-- C8: the room-display-name lookup returns the `content.displayname`
of the first entry of the member listing whose `sender` equals the
queried user id. -/
theorem get_room_displayname_first_match
    (members : Json) (user_id : String) (pre post : List Json)
    (mem s c d : Json)
    (hchunk : members.getField "chunk" = some (.arr (pre ++ mem :: post)))
    (hpre : ∀ m ∈ pre, ∃ s0, m.getField "sender" = some s0 ∧
        ( s0.eqStr user_id) = false)
    (hs : mem.getField "sender" = some s)
    (hseq : ( s.eqStr user_id) = true)
    (hc : mem.getField "content" = some c)
    (hd : c.getField "displayname" = some d) :
    get_room_displayname members user_id = .ok (some d) := by
  unfold get_room_displayname
  rw [hchunk]
  exact displaynameScan_first_match_aux user_id pre mem post s c d
    hpre hs hseq hc hd

theorem get_room_displayname_first_match_witness :
    get_room_displayname
        (.obj [("chunk", .arr
          [.obj [("sender", .str "@other:hs"),
                 ("content", .obj [("displayname", .str "Other")])],
           .obj [("sender", .str "@neo:hs"),
                 ("content", .obj [("displayname", .str "Neo")])]])])
        "@neo:hs" = .ok (some (.str "Neo")) :=
  get_room_displayname_first_match
    (.obj [("chunk", .arr
      [.obj [("sender", .str "@other:hs"),
             ("content", .obj [("displayname", .str "Other")])],
       .obj [("sender", .str "@neo:hs"),
             ("content", .obj [("displayname", .str "Neo")])]])])
    "@neo:hs"
    [.obj [("sender", .str "@other:hs"),
           ("content", .obj [("displayname", .str "Other")])]]
    []
    (.obj [("sender", .str "@neo:hs"),
           ("content", .obj [("displayname", .str "Neo")])])
    (.str "@neo:hs") (.obj [("displayname", .str "Neo")]) (.str "Neo")
    rfl
    (by
      intro m hm
      simp only [List.mem_singleton] at hm
      subst hm
      exact ⟨.str "@other:hs", rfl, rfl⟩)
    rfl rfl rfl rfl

/-- C10: when no entry of the member listing has the queried user id as
its `sender`, the room-display-name lookup falls off the loop and
returns none, raising nothing and substituting no fallback value. -/
theorem get_room_displayname_no_match
    (members : Json) (user_id : String) (chunk : List Json)
    (hchunk : members.getField "chunk" = some (.arr chunk))
    (hall : ∀ m ∈ chunk, ∃ s, m.getField "sender" = some s ∧
        ( s.eqStr user_id) = false) :
    get_room_displayname members user_id = .ok none := by
  unfold get_room_displayname
  rw [hchunk]
  exact displaynameScan_no_match_aux user_id chunk hall

theorem get_room_displayname_no_match_witness :
    get_room_displayname
        (.obj [("chunk", .arr
          [.obj [("sender", .str "@other:hs"),
                 ("content", .obj [("displayname", .str "Other")])]])])
        "@neo:hs" = .ok none :=
  get_room_displayname_no_match
    (.obj [("chunk", .arr
      [.obj [("sender", .str "@other:hs"),
             ("content", .obj [("displayname", .str "Other")])]])])
    "@neo:hs"
    [.obj [("sender", .str "@other:hs"),
           ("content", .obj [("displayname", .str "Other")])]]
    rfl
    (by
      intro m hm
      simp only [List.mem_singleton] at hm
      subst hm
      exact ⟨.str "@other:hs", rfl, rfl⟩)

theorem send_method_case_insensitive_witness :
    (send "http://h" none ⟨"get", "/a", none, none, none, "/p"⟩
        [⟨200, some .null, ""⟩]).outcome.isMatrixError = false ∧
      (buildRequest "http://h" none
        ⟨"get", "/a", none, none, none, "/p"⟩).method = strUpper "get" ∧
      ([(⟨200, some .null, ""⟩ : Response)] ≠ [] →
        (send "http://h" none ⟨"get", "/a", none, none, none, "/p"⟩
            [⟨200, some .null, ""⟩]).requests.head? =
          some (buildRequest "http://h" none
            ⟨"get", "/a", none, none, none, "/p"⟩)) :=
  send_method_case_insensitive "http://h" none
    ⟨"get", "/a", none, none, none, "/p"⟩ [⟨200, some .null, ""⟩] (by decide)
